import Mathlib

/-!
Verification development for the MusicComposer score-to-waveform engine
(`src/MusicComposer.py`).

The Python source is shallowly embedded here:
  - exact rational arithmetic (`ℚ`) stands in for Python floats wherever the
    source only adds, subtracts, multiplies and divides;
  - real numbers (`ℝ`) are used where the source calls `math.sin` / `math.pow`;
  - Python's `int(...)` conversion (truncation toward zero) is `pyInt`,
    backed by `Int.tdiv`;
  - Python 2 integer division `a/b` (floor division) is `Int.fdiv`;
  - code that can raise a Python exception is embedded in `Except PyError`.

Enumeration members (`Tone`, `Dynamic`) are modelled by their numeric
payloads, exactly as listed in the source.
-/

namespace MusicComposer

/-- Runtime errors of the embedded fragment.  `attributeError` models a Python
`AttributeError` (an access to a field the object does not have). -/
inductive PyError
  | attributeError
deriving DecidableEq, Repr

/-- `class Tone(Enum)`: the tone of a note.  `C = 0, D = 2, E = 4, F = 5,
G = 7, A = 9, B = 11`. -/
inductive Tone
  | C
  | D
  | E
  | F
  | G
  | A
  | B
deriving DecidableEq, Repr

/-- The numeric payload of a `Tone` member, verbatim from the source. -/
def Tone.val : Tone → ℚ
  | .C => 0
  | .D => 2
  | .E => 4
  | .F => 5
  | .G => 7
  | .A => 9
  | .B => 11

namespace Dynamic

/-- `Dynamic.ppp = 16` -/
def ppp : ℚ := 16

/-- `Dynamic.pp = 33` -/
def pp : ℚ := 33

/-- `Dynamic.p = 49` -/
def p : ℚ := 49

/-- `Dynamic.mp = 64` -/
def mp : ℚ := 64

/-- `Dynamic.mf = 80` -/
def mf : ℚ := 80

/-- `Dynamic.f = 96` -/
def f : ℚ := 96

/-- `Dynamic.ff = 112` -/
def ff : ℚ := 112

/-- `Dynamic.fff = 126` -/
def fff : ℚ := 126

end Dynamic

/-- `class Note`: fields set by `Note.__init__` (src lines 60-67).
`duration` is stored as a number (`float(duration)` in the source), `tone` is
`None` for a rest, `octave` an integer, `sign` a (possibly fractional)
accidental offset, `dynamic` the numeric payload of the `Dynamic` member. -/
structure Note where
  duration : ℚ
  tone : Option Tone
  octave : ℤ
  sign : ℚ
  dynamic : ℚ
deriving DecidableEq, Repr

/-- `Note.__init__(duration, tone=None, octave=0, sign=0, dynamic=Dynamic.mf)`:
stores its arguments unchanged; the source performs no validation of any kind
(src lines 60-67). -/
def mkNote (duration : ℚ) (tone : Option Tone) (octave : ℤ) (sign : ℚ)
    (dynamic : ℚ) : Note :=
  ⟨duration, tone, octave, sign, dynamic⟩

/-- The frequency formula of `Note.frequency` for a pitched note
(src lines 69-73): `octaves = (octave*12 + tone + sign)/12.0`;
`440 * math.pow(2, octaves)`. -/
noncomputable def freqVal (t : Tone) (octave : ℤ) (sign : ℚ) : ℝ :=
  440 * (2 : ℝ) ^ (((((octave * 12 : ℤ) : ℚ) + t.val + sign) / 12 : ℚ) : ℝ)

/-- `Note.frequency` (src lines 69-73): the frequency if the note has a pitch,
otherwise `None`. -/
noncomputable def Note.frequency (n : Note) : Option ℝ :=
  n.tone.map fun t => freqVal t n.octave n.sign

/-- Python's `int(q)` on a rational value: truncation toward zero. -/
def pyInt (q : ℚ) : ℤ :=
  Int.tdiv q.num q.den

/-- The loop of `Bar.__init__` (src lines 88-97).  State: the list of already
accepted notes (built in order) and `notesTotalDuration`.  The clipping branch
(src lines 90-91) evaluates `note.pitch`, but `Note` objects have no `pitch`
attribute (their fields are `duration`, `tone`, `octave`, `sign`, `dynamic`),
so reaching that branch raises `AttributeError` at runtime. -/
def barLoop (barTotalDuration : ℚ) :
    List Note → ℚ → Except PyError (List Note × ℚ)
  | [], notesTotalDuration => .ok ([], notesTotalDuration)
  | note :: rest, notesTotalDuration =>
    if notesTotalDuration + note.duration > barTotalDuration then
      .error .attributeError
    else do
      let (built, total) ← barLoop barTotalDuration rest
        (notesTotalDuration + note.duration)
      .ok (note :: built, total)

/-- `Bar.__init__` (src lines 80-99), restricted to the computation of
`self.notes`: walk the raw notes accumulating durations, then pad with a
single rest `Note(barTotalDuration - notesTotalDuration)` if the accumulated
total falls short of `barTotalDuration = float(numberOfBeats)/divisor`. -/
def Bar.mkNotes (notes : List Note) (numberOfBeats divisor : ℚ) :
    Except PyError (List Note) := do
  let barTotalDuration := numberOfBeats / divisor
  let (built, notesTotalDuration) ← barLoop barTotalDuration notes 0
  if notesTotalDuration < barTotalDuration then
    .ok (built ++ [mkNote (barTotalDuration - notesTotalDuration) none 0 0
      Dynamic.mf])
  else
    .ok built

/-- Total duration of a list of notes. -/
def sumDur (notes : List Note) : ℚ :=
  (notes.map Note.duration).sum

/-- Python's `int(r)` on a real value: truncation toward zero. -/
noncomputable def pyIntReal (r : ℝ) : ℤ :=
  if 0 ≤ r then ⌊r⌋ else -⌊-r⌋

/-- `numberOfFrames` of one note in `Composition.convertToWaveData`
(src lines 113, 118, 121): `bps = bpm/60`;
`duration = bar.divisor*note.duration/bps`;
`numberOfFrames = int(bitRate*duration)`. -/
def numberOfFrames (bitRate bpm divisor : ℚ) (n : Note) : ℤ :=
  pyInt (bitRate * (divisor * n.duration / (bpm / 60)))

/-- `fadingFrames = int(0.01*bitRate)` (src line 127). -/
def fadingFramesRaw (bitRate : ℚ) : ℤ :=
  pyInt (1 / 100 * bitRate)

/-- `fadingFrames` after the clamp of src lines 128-129:
`if fadingFrames > numberOfFrames: fadingFrames = numberOfFrames`. -/
def fadingFrames (bitRate : ℚ) (numFrames : ℤ) : ℤ :=
  if fadingFramesRaw bitRate > numFrames then numFrames
  else fadingFramesRaw bitRate

/-- `fadeInFrames = fadingFrames/2` (src line 130; Python 2 floor division). -/
def fadeInFrames (bitRate : ℚ) (numFrames : ℤ) : ℤ :=
  Int.fdiv (fadingFrames bitRate numFrames) 2

/-- `fadeOutFrames = (fadingFrames+1)/2` (src line 131; Python 2 floor
division). -/
def fadeOutFrames (bitRate : ℚ) (numFrames : ℤ) : ℤ :=
  Int.fdiv (fadingFrames bitRate numFrames + 1) 2

/-- The value of `frame` just before `chr(int(frame))` for a pitched note at
sample index `x` (src lines 133-143): `frame = math.sin(x_f/bitRate*frequency*TWO_PI)`,
multiplied by `x_f/fadeInFrames*amplitude` in the fade-in branch, by
`(1-x_f/fadeOutFrames)*amplitude` (after `x_f -= numberOfFrames-fadeOutFrames`)
in the fade-out branch, and by `amplitude` otherwise; then `frame += 128`. -/
noncomputable def pitchedFrame (bitRate : ℚ) (freq amp : ℝ) (numFrames x : ℤ) :
    ℝ :=
  let frame := Real.sin ((x : ℝ) / (bitRate : ℝ) * freq * (2 * Real.pi))
  let scaled :=
    if x < fadeInFrames bitRate numFrames then
      frame * ((x : ℝ) / ((fadeInFrames bitRate numFrames : ℤ) : ℝ) * amp)
    else if numFrames - fadeOutFrames bitRate numFrames ≤ x then
      frame * ((1 - ((x : ℝ) - ((numFrames : ℝ) -
        ((fadeOutFrames bitRate numFrames : ℤ) : ℝ))) /
        ((fadeOutFrames bitRate numFrames : ℤ) : ℝ)) * amp)
    else
      frame * amp
  scaled + 128

/-- The sample emitted for a pitched note at index `x`:
`chr(int(frame))` (src line 144), i.e. the truncated integer value. -/
noncomputable def pitchedSample (bitRate : ℚ) (freq amp : ℝ) (numFrames x : ℤ) :
    ℤ :=
  pyIntReal (pitchedFrame bitRate freq amp numFrames x)

/-- The sample buffer (`chunk`) emitted for one note by
`Composition.convertToWaveData` (src lines 116-145): `numberOfFrames` copies of
`chr(128)` for a rest, and `pitchedSample` at each index of
`xrange(numberOfFrames)` for a pitched note, with
`amplitude = note.dynamic`. -/
noncomputable def renderNote (bitRate bpm divisor : ℚ) (n : Note) : List ℤ :=
  let numFrames := numberOfFrames bitRate bpm divisor n
  match n.tone with
  | none => List.replicate numFrames.toNat 128
  | some t =>
    (List.range numFrames.toNat).map fun x : ℕ =>
      pitchedSample bitRate (freqVal t n.octave n.sign) (n.dynamic : ℝ)
        numFrames (x : ℤ)

/-- A bar as stored by `Bar.__init__`: the time signature together with the
already-normalized note list. -/
structure Bar where
  numberOfBeats : ℚ
  divisor : ℚ
  notes : List Note
deriving DecidableEq, Repr

/-- `Composition.convertToWaveData` (src lines 110-146): one sample buffer per
note, bars and notes in order. -/
noncomputable def convertToWaveData (bars : List Bar) (bpm : ℚ)
    (bitRate : ℚ) : List (List ℤ) :=
  bars.flatMap fun bar => bar.notes.map (renderNote bitRate bpm bar.divisor)

/-- Modelled from the spec (claim side of C4): the fade-frame count as the
claim words it, `min(frameCount, round(0.01*sampleRate))`. -/
def claimFadeFrames (bitRate : ℚ) (numFrames : ℤ) : ℤ :=
  min numFrames (round ((1 / 100 : ℚ) * bitRate))

/-- Modelled from the spec (claim side of C4), with the fade-frame count
abstracted: `fadeInFrames = floor(fades/2)`, `fadeOutFrames = ceil(fades/2)`
(for an integer `fades`, `ceil(fades/2) = (fades+1)` floor-divided by `2`);
the sample is `amp * sin(2*pi*freq*x/R)` times the fade-in ramp
`x/fadeInFrames` when `x < fadeInFrames`, times the fade-out ramp
`1 - (x - (frameCount - fadeOutFrames))/fadeOutFrames` when
`x >= frameCount - fadeOutFrames`, shifted by the PCM midpoint 128, quantized
(floor), and clamped to [0, 255]. -/
noncomputable def claimSampleCore (bitRate : ℚ) (freq amp : ℝ)
    (numFrames x fades : ℤ) : ℤ :=
  let fIn := Int.fdiv fades 2
  let fOut := Int.fdiv (fades + 1) 2
  let v := amp * Real.sin (2 * Real.pi * freq * (x : ℝ) / (bitRate : ℝ))
  let scaled :=
    if x < fIn then v * ((x : ℝ) / (fIn : ℝ))
    else if numFrames - fOut ≤ x then
      v * (1 - ((x : ℝ) - ((numFrames : ℝ) - (fOut : ℝ))) / (fOut : ℝ))
    else v
  max 0 (min 255 ⌊(128 : ℝ) + scaled⌋)

/-- Modelled from the spec (claim side of C4): the pitched sample exactly as
claim C4 words it, with `fadeFrames = min(frameCount, round(0.01*R))`. -/
noncomputable def claimSample (bitRate : ℚ) (freq amp : ℝ) (numFrames x : ℤ) :
    ℤ :=
  claimSampleCore bitRate freq amp numFrames x (claimFadeFrames bitRate numFrames)

/-- The amended claim side of C4: identical to `claimSample` except that the
fade-frame count is `min(frameCount, floor(0.01*R))`, matching the source's
`int(0.01*bitRate)` truncation. -/
noncomputable def claimSampleTrunc (bitRate : ℚ) (freq amp : ℝ)
    (numFrames x : ℤ) : ℤ :=
  claimSampleCore bitRate freq amp numFrames x
    (min numFrames ⌊(1 / 100 : ℚ) * bitRate⌋)

/-! ## Helper lemmas -/

/-- Python's `int(q)` agrees with the floor on non-negative values. -/
theorem pyInt_eq_floor {q : ℚ} (h : 0 ≤ q) : pyInt q = ⌊q⌋ := by
  rw [pyInt, Rat.floor_def]
  exact Int.tdiv_eq_ediv (Rat.num_nonneg.mpr h) (Int.ofNat_nonneg q.den)

theorem sumDur_cons (n : Note) (rest : List Note) :
    sumDur (n :: rest) = n.duration + sumDur rest := by
  simp [sumDur]

theorem sumDur_nonneg {notes : List Note} (h : ∀ n ∈ notes, 0 < n.duration) :
    0 ≤ sumDur notes :=
  List.sum_nonneg fun x hx => by
    obtain ⟨n, hn, rfl⟩ := List.mem_map.mp hx
    exact le_of_lt (h n hn)

/-- As long as the accumulated duration stays within the bar, the loop of
`Bar.__init__` accepts every note unchanged and never reaches the clipping
branch. -/
theorem barLoop_ok (total : ℚ) (notes : List Note) (acc : ℚ)
    (hpos : ∀ n ∈ notes, 0 < n.duration)
    (hle : acc + sumDur notes ≤ total) :
    barLoop total notes acc = .ok (notes, acc + sumDur notes) := by
  induction notes generalizing acc with
  | nil => simp [barLoop, sumDur]
  | cons n rest ih =>
    have hrest : ∀ m ∈ rest, 0 < m.duration := fun m hm =>
      hpos m (List.mem_cons_of_mem _ hm)
    have hr0 : 0 ≤ sumDur rest := sumDur_nonneg hrest
    have hsum : acc + n.duration + sumDur rest ≤ total := by
      rw [sumDur_cons] at hle; linarith
    have hcond : ¬ (acc + n.duration > total) := by linarith
    rw [barLoop, if_neg hcond, ih _ hrest hsum, sumDur_cons, ← add_assoc]
    rfl

/-- The sample buffer of a note always has `numberOfFrames` (clamped to 0)
entries, for rests and pitched notes alike. -/
theorem renderNote_length (bitRate bpm divisor : ℚ) (n : Note) :
    (renderNote bitRate bpm divisor n).length =
      (numberOfFrames bitRate bpm divisor n).toNat := by
  cases htone : n.tone <;>
    simp only [renderNote, htone, List.length_replicate, List.length_map,
      List.length_range]

/-- With a positive sample rate, the source's clamped `fadingFrames`
(`int`, i.e. floor, of `0.01*bitRate`, then clamped by `numberOfFrames`) is
exactly `min numberOfFrames ⌊0.01*bitRate⌋`. -/
theorem fadingFrames_eq_min (bitRate : ℚ) (numFrames : ℤ) (h : 0 < bitRate) :
    fadingFrames bitRate numFrames = min numFrames ⌊(1/100 : ℚ) * bitRate⌋ := by
  rw [fadingFrames, fadingFramesRaw, pyInt_eq_floor (by positivity)]
  rcases le_or_lt ⌊(1/100 : ℚ) * bitRate⌋ numFrames with hle | hlt
  · rw [if_neg (not_lt.mpr hle), min_eq_right hle]
  · rw [if_pos hlt, min_eq_left (le_of_lt hlt)]

/-- An amplitude-scaled value with `|s| ≤ 1` and a ramp factor in `[0,1]`
stays within `[-amp, amp]`. -/
theorem sval_bound (amp s r : ℝ) (h0 : 0 ≤ amp) (hs1 : -1 ≤ s) (hs2 : s ≤ 1)
    (hr0 : 0 ≤ r) (hr1 : r ≤ 1) :
    -amp ≤ amp * s * r ∧ amp * s * r ≤ amp := by
  have hsr1 : s * r ≤ 1 := by nlinarith
  have hsr2 : -1 ≤ s * r := by nlinarith
  constructor
  · nlinarith
  · nlinarith

/-- For a frame value within `[2, 254]` (as produced with amplitudes at most
126), Python's `int()` truncation agrees with the floor, and the claim's
clamp to `[0, 255]` is the identity. -/
theorem sample_eq_clamped (v amp : ℝ) (h126 : amp ≤ 126)
    (hlo : -amp ≤ v) (hhi : v ≤ amp) :
    pyIntReal (v + 128) = max 0 (min 255 ⌊(128 : ℝ) + v⌋) := by
  have hamp : 0 ≤ amp := by linarith
  have hv2 : (2 : ℝ) ≤ v + 128 := by linarith
  have hv254 : v + 128 ≤ 254 := by linarith
  have hpy : pyIntReal (v + 128) = ⌊v + 128⌋ := by
    rw [pyIntReal, if_pos (by linarith : (0 : ℝ) ≤ v + 128)]
  have hcomm : (128 : ℝ) + v = v + 128 := by ring
  rw [hpy, hcomm]
  have h2 : (2 : ℤ) ≤ ⌊v + 128⌋ := Int.le_floor.mpr (by exact_mod_cast hv2)
  have h254 : ⌊v + 128⌋ ≤ 254 := by
    have hf := Int.floor_le_floor hv254
    have he : (⌊(254 : ℝ)⌋ : ℤ) = 254 := by norm_num
    omega
  rw [min_eq_right (by omega), max_eq_right (by omega)]

/-! ## Claims about the Bar normalizer -/

/-- C1.  The claimed truncation policy never happens: as soon as the running
duration sum first exceeds `barTotalDuration`, the clipping branch of
`Bar.__init__` (src lines 90-91) evaluates `note.pitch` on a `Note` that has
no such attribute, so construction raises `AttributeError` instead of
producing the first k-1 notes plus a clipped note.  Concretely, a single
pitched note of duration 1 in a 1/2 bar. -/
theorem C1_truncation_raises_attribute_error :
    Bar.mkNotes [mkNote 1 (some Tone.C) 0 0 Dynamic.f] 1 2 =
      .error .attributeError := by
  norm_num [Bar.mkNotes, barLoop, mkNote]
  rfl

/-- C2.  The duration invariant fails on clipping inputs: for the input below
(one note of duration 3/4 in a 2/4 bar) `Bar.__init__` raises
`AttributeError` in the clipping branch, so no Bar with
`sum = beats/divisor` is constructed at all. -/
theorem C2_duration_invariant_fails_on_clipping_input :
    Bar.mkNotes [mkNote (3/4) (some Tone.A) 0 0 Dynamic.f,
      mkNote (1/4) none 0 0 Dynamic.mf] 2 4 =
      .error .attributeError := by
  norm_num [Bar.mkNotes, barLoop, mkNote]
  rfl

/-- C6.  Padding: for positive-duration input notes whose total does not
exceed `barTotalDuration = numberOfBeats/divisor`, `Bar.__init__` keeps every
note unchanged and appends exactly one trailing rest (no pitch, default
dynamic) closing the gap when the total falls strictly short; when the total
is exactly the bar length, the output is the input list itself, with no
padding and no clipping.  The empty list therefore yields a single full-bar
rest. -/
theorem C6_bar_padding (notes : List Note) (numberOfBeats divisor : ℚ)
    (hdiv : 0 < divisor)
    (hpos : ∀ n ∈ notes, 0 < n.duration)
    (hle : sumDur notes ≤ numberOfBeats / divisor) :
    Bar.mkNotes notes numberOfBeats divisor =
      .ok (if sumDur notes < numberOfBeats / divisor
        then notes ++ [mkNote (numberOfBeats / divisor - sumDur notes) none 0 0
          Dynamic.mf]
        else notes) := by
  have hloop := barLoop_ok (numberOfBeats / divisor) notes 0 hpos
    (by simpa using hle)
  rw [zero_add] at hloop
  rw [Bar.mkNotes, hloop, apply_ite (Except.ok (ε := PyError))]
  rfl

/-- C6 witness: the empty list in a 1/2 bar yields a single half-note rest. -/
theorem C6_bar_padding_witness :
    Bar.mkNotes [] 1 2 = .ok [mkNote (1/2) none 0 0 Dynamic.mf] := by
  have h := C6_bar_padding [] 1 2 (by norm_num) (by simp) (by norm_num [sumDur])
  norm_num [sumDur] at h
  simpa [mkNote] using h

/-- C9.  `Note.__init__` performs no duration validation whatsoever: a
non-positive duration passed directly to the constructor is stored unchanged
in a successfully produced `Note`; there is no `InvalidDuration` condition
anywhere in the source. -/
theorem C9_note_accepts_nonpositive_duration (d : ℚ) (hd : d ≤ 0)
    (tone : Option Tone) (octave : ℤ) (sign dynamic : ℚ) :
    (mkNote d tone octave sign dynamic).duration = d :=
  rfl

/-- C9 witness: duration -2 is accepted. -/
theorem C9_note_accepts_nonpositive_duration_witness :
    (mkNote (-2) none 0 0 Dynamic.mf).duration = -2 :=
  C9_note_accepts_nonpositive_duration (-2) (by norm_num) none 0 0 Dynamic.mf

/-- C9 counterexample to the claim as stated: `Note(-1)` does not fail; it
produces the rest note with duration -1 and all defaulted fields. -/
theorem C9_counterexample :
    mkNote (-1) none 0 0 Dynamic.mf =
      ⟨-1, none, 0, 0, 80⟩ := by
  norm_num [mkNote, Dynamic.mf]

/-- C10.  The divisions in the fade branches of the pitched-note loop are
never divisions by zero: for a sample index `0 ≤ x < numberOfFrames`, the
fade-in branch (`x < fadeInFrames`) forces `fadeInFrames ≥ 1`, and the
fade-out branch (`x ≥ numberOfFrames - fadeOutFrames`) forces
`fadeOutFrames ≥ 1`. -/
theorem C10_fade_divisions_never_by_zero (bitRate : ℚ) (numFrames x : ℤ)
    (hx : 0 ≤ x) (hxN : x < numFrames) :
    (x < fadeInFrames bitRate numFrames → 1 ≤ fadeInFrames bitRate numFrames) ∧
    (numFrames - fadeOutFrames bitRate numFrames ≤ x →
      1 ≤ fadeOutFrames bitRate numFrames) :=
  ⟨fun h => by omega, fun h => by omega⟩

/-- C10 witness at `bitRate = 44100`, `numberOfFrames = 100`, `x = 0`. -/
theorem C10_fade_divisions_never_by_zero_witness :
    ((0 : ℤ) < fadeInFrames 44100 100 → 1 ≤ fadeInFrames 44100 100) ∧
    ((100 : ℤ) - fadeOutFrames 44100 100 ≤ 0 → 1 ≤ fadeOutFrames 44100 100) :=
  C10_fade_divisions_never_by_zero 44100 100 0 (by norm_num) (by norm_num)

/-! ## Claims about the waveform synthesizer frame counts -/

/-- C5 (amended).  The emitted sample buffer of a note (rest or pitched)
contains `int(bitRate * divisor * note.duration / (bpm/60))` samples, i.e. the
TRUNCATED (floor, for non-negative values) frame count — not the rounded
one. -/
theorem C5_frame_count_floor (bitRate bpm divisor : ℚ) (n : Note)
    (h : 0 ≤ bitRate * (divisor * n.duration / (bpm / 60))) :
    ((renderNote bitRate bpm divisor n).length : ℤ) =
      ⌊bitRate * (divisor * n.duration / (bpm / 60))⌋ := by
  have hfl : numberOfFrames bitRate bpm divisor n =
      ⌊bitRate * (divisor * n.duration / (bpm / 60))⌋ := pyInt_eq_floor h
  have hnn : 0 ≤ numberOfFrames bitRate bpm divisor n := by
    rw [hfl]
    exact Int.floor_nonneg.mpr h
  rw [renderNote_length, Int.toNat_of_nonneg hnn, hfl]

/-- C5 witness: a 1/16 rest in a 4/4 bar at 120 bpm and 44100 Hz gives
`floor(88200/16) = 5512` frames. -/
theorem C5_frame_count_floor_witness :
    ((renderNote 44100 120 4 (mkNote (1/16) none 0 0 Dynamic.mf)).length : ℤ) =
      ⌊(44100 : ℚ) * (4 * ((1 : ℚ)/16) / (120 / 60))⌋ :=
  C5_frame_count_floor 44100 120 4 (mkNote (1/16) none 0 0 Dynamic.mf)
    (by norm_num [mkNote])

/-- C5 counterexample to the claim as stated: for a rest of duration 1/10000
in a 4/4 bar at 120 bpm and 44100 Hz, the exact frame count is 8.82, the code
emits `int(8.82) = 8` frames, but `round(8.82) = 9`. -/
theorem C5_counterexample :
    ¬ (((renderNote 44100 120 4 (mkNote (1/10000) none 0 0 Dynamic.mf)).length :
        ℤ) = round ((44100 : ℚ) * (4 * ((1 : ℚ)/10000) / (120 / 60)))) := by
  have h0 : (0 : ℚ) ≤ 44100 * (4 * ((1 : ℚ)/10000) / (120 / 60)) := by norm_num
  have hfl : numberOfFrames 44100 120 4 (mkNote (1/10000) none 0 0 Dynamic.mf)
      = 8 := by
    have hpy := pyInt_eq_floor h0
    simp only [numberOfFrames, mkNote]
    rw [hpy]
    norm_num [Int.floor_eq_iff]
  have hlen : ((renderNote 44100 120 4
      (mkNote (1/10000) none 0 0 Dynamic.mf)).length : ℤ) = 8 := by
    rw [renderNote_length, hfl]
    rfl
  rw [hlen]
  norm_num [round_eq, Int.floor_eq_iff]

/-- C7.  A rest (a note with no pitch) renders to a buffer of exactly
`numberOfFrames` samples, every one of which is the PCM midpoint 128; the fade
envelope code is never touched on this path. -/
theorem C7_rest_rendering (bitRate bpm divisor : ℚ) (n : Note)
    (h : n.tone = none) :
    (renderNote bitRate bpm divisor n).length =
      (numberOfFrames bitRate bpm divisor n).toNat ∧
    ∀ s ∈ renderNote bitRate bpm divisor n, s = 128 := by
  refine ⟨renderNote_length bitRate bpm divisor n, ?_⟩
  intro s hs
  simp only [renderNote, h] at hs
  exact List.eq_of_mem_replicate hs

/-- C7 witness: a 1/4 rest in a 4/4 bar at 120 bpm and 44100 Hz. -/
theorem C7_rest_rendering_witness :
    (renderNote 44100 120 4 (mkNote (1/4) none 0 0 Dynamic.mf)).length =
      (numberOfFrames 44100 120 4 (mkNote (1/4) none 0 0 Dynamic.mf)).toNat ∧
    ∀ s ∈ renderNote 44100 120 4 (mkNote (1/4) none 0 0 Dynamic.mf), s = 128 :=
  C7_rest_rendering 44100 120 4 (mkNote (1/4) none 0 0 Dynamic.mf) rfl

/-! ## Claims about the frequency formula -/

/-- Tone C at octave 0 with no accidental has frequency exactly 440 (its
semitone value is 0, so the exponent vanishes). -/
theorem freqVal_C_zero : freqVal Tone.C 0 0 = 440 := by
  norm_num [freqVal, Tone.val, Real.rpow_zero]

/-- C8.  Raising the octave by one doubles the frequency, for every tone. -/
theorem C8_octave_doubling (t : Tone) (o : ℤ) :
    freqVal t (o + 1) 0 = 2 * freqVal t o 0 := by
  unfold freqVal
  have key : (((((o + 1) * 12 : ℤ) : ℚ) + t.val + 0) / 12 : ℚ) =
      ((((o * 12 : ℤ) : ℚ) + t.val + 0) / 12 : ℚ) + 1 := by
    push_cast
    ring
  rw [key, Rat.cast_add, Rat.cast_one,
    Real.rpow_add (by norm_num : (0 : ℝ) < 2), Real.rpow_one]
  ring

/-- C3 (amended).  The frequency of a pitched note is
`440 * 2^((octave*12 + tone + sign)/12)` (that is the definition of
`freqVal`, taken verbatim from src lines 71-73); the pitch reaching exactly
440 at octave 0 with no accidental is tone C (semitone 0), not A, and the
result is positive for every (tone, octave, accidental) triple with no error
conditions. -/
theorem C3_frequency_amended :
    freqVal Tone.C 0 0 = 440 ∧
    ∀ (t : Tone) (o : ℤ) (s : ℚ), 0 < freqVal t o s := by
  constructor
  · exact freqVal_C_zero
  · intro t o s
    unfold freqVal
    positivity

/-- C4 (amended).  For every sample rate `bitRate > 0`, frequency, amplitude
in the range `[0, 126]` spanned by the `Dynamic` values, frame count and
sample index `0 ≤ x < numberOfFrames`, the sample the code emits for a
pitched note equals the claim's formula with the fade-frame count computed by
TRUNCATION, `fadeFrames = min(frameCount, floor(0.01*bitRate))` (the claim's
`round` is corrected to `floor`); the shift by 128, floor quantization and
clamp to `[0, 255]` of the claim are otherwise exact (the clamp is an
identity because the amplitude never exceeds 126). -/
theorem C4_pitched_sample_trunc (bitRate : ℚ) (freq amp : ℝ) (numFrames x : ℤ)
    (hR : 0 < bitRate) (h0 : 0 ≤ amp) (h126 : amp ≤ 126)
    (hx : 0 ≤ x) (hxN : x < numFrames) :
    pitchedSample bitRate freq amp numFrames x =
      claimSampleTrunc bitRate freq amp numFrames x := by
  have hFF := fadingFrames_eq_min bitRate numFrames hR
  have harg : (x : ℝ) / (bitRate : ℝ) * freq * (2 * Real.pi) =
      2 * Real.pi * freq * (x : ℝ) / (bitRate : ℝ) := by ring
  simp only [pitchedSample, pitchedFrame, claimSampleTrunc, claimSampleCore,
    fadeInFrames, fadeOutFrames, ← hFF, harg]
  have hs1 := Real.neg_one_le_sin (2 * Real.pi * freq * (x : ℝ) / (bitRate : ℝ))
  have hs2 := Real.sin_le_one (2 * Real.pi * freq * (x : ℝ) / (bitRate : ℝ))
  set s := Real.sin (2 * Real.pi * freq * (x : ℝ) / (bitRate : ℝ)) with hsdef
  set F := fadingFrames bitRate numFrames with hFdef
  split_ifs with h1 h2
  · -- fade-in branch
    have hfpos : (0 : ℤ) < Int.fdiv F 2 := by omega
    have hfposR : (0 : ℝ) < ((Int.fdiv F 2 : ℤ) : ℝ) := by exact_mod_cast hfpos
    have hr0 : (0 : ℝ) ≤ (x : ℝ) / ((Int.fdiv F 2 : ℤ) : ℝ) :=
      div_nonneg (by exact_mod_cast hx) (le_of_lt hfposR)
    have hr1 : (x : ℝ) / ((Int.fdiv F 2 : ℤ) : ℝ) ≤ 1 :=
      (div_le_one hfposR).mpr (by exact_mod_cast le_of_lt h1)
    have hb := sval_bound amp s ((x : ℝ) / ((Int.fdiv F 2 : ℤ) : ℝ)) h0 hs1 hs2
      hr0 hr1
    have hveq : s * ((x : ℝ) / ((Int.fdiv F 2 : ℤ) : ℝ) * amp) =
        amp * s * ((x : ℝ) / ((Int.fdiv F 2 : ℤ) : ℝ)) := by ring
    have hveq2 : amp * s * ((x : ℝ) / ((Int.fdiv F 2 : ℤ) : ℝ)) =
        amp * s * ((x : ℝ) / ((Int.fdiv F 2 : ℤ) : ℝ)) := rfl
    rw [hveq]
    exact sample_eq_clamped _ amp h126 hb.1 hb.2
  · -- fade-out branch
    have hfpos : (0 : ℤ) < Int.fdiv (F + 1) 2 := by omega
    have hfposR : (0 : ℝ) < ((Int.fdiv (F + 1) 2 : ℤ) : ℝ) := by
      exact_mod_cast hfpos
    have hd0 : (0 : ℝ) ≤ (x : ℝ) -
        ((numFrames : ℝ) - ((Int.fdiv (F + 1) 2 : ℤ) : ℝ)) := by
      have : ((numFrames - Int.fdiv (F + 1) 2 : ℤ) : ℝ) ≤ (x : ℝ) := by
        exact_mod_cast h2
      push_cast at this
      linarith
    have hd1 : (x : ℝ) - ((numFrames : ℝ) - ((Int.fdiv (F + 1) 2 : ℤ) : ℝ)) ≤
        ((Int.fdiv (F + 1) 2 : ℤ) : ℝ) := by
      have : (x : ℝ) < (numFrames : ℝ) := by exact_mod_cast hxN
      linarith
    have hr0 : (0 : ℝ) ≤ 1 - ((x : ℝ) -
        ((numFrames : ℝ) - ((Int.fdiv (F + 1) 2 : ℤ) : ℝ))) /
        ((Int.fdiv (F + 1) 2 : ℤ) : ℝ) := by
      have := (div_le_one hfposR).mpr hd1
      linarith
    have hr1 : 1 - ((x : ℝ) -
        ((numFrames : ℝ) - ((Int.fdiv (F + 1) 2 : ℤ) : ℝ))) /
        ((Int.fdiv (F + 1) 2 : ℤ) : ℝ) ≤ 1 := by
      have := div_nonneg hd0 (le_of_lt hfposR)
      linarith
    have hb := sval_bound amp s (1 - ((x : ℝ) -
        ((numFrames : ℝ) - ((Int.fdiv (F + 1) 2 : ℤ) : ℝ))) /
        ((Int.fdiv (F + 1) 2 : ℤ) : ℝ)) h0 hs1 hs2 hr0 hr1
    have hveq : s * ((1 - ((x : ℝ) -
        ((numFrames : ℝ) - ((Int.fdiv (F + 1) 2 : ℤ) : ℝ))) /
        ((Int.fdiv (F + 1) 2 : ℤ) : ℝ)) * amp) =
        amp * s * (1 - ((x : ℝ) -
        ((numFrames : ℝ) - ((Int.fdiv (F + 1) 2 : ℤ) : ℝ))) /
        ((Int.fdiv (F + 1) 2 : ℤ) : ℝ)) := by ring
    rw [hveq]
    exact sample_eq_clamped _ amp h126 hb.1 hb.2
  · -- plateau branch
    have hb := sval_bound amp s 1 h0 hs1 hs2 (by norm_num) (by norm_num)
    have hveq : s * amp = amp * s * 1 := by ring
    have hveq2 : amp * s = amp * s * 1 := by ring
    rw [hveq2, hveq]
    exact sample_eq_clamped _ amp h126 hb.1 hb.2

/-- C4 witness: a concrete instantiation of the amended sample equation. -/
theorem C4_pitched_sample_trunc_witness :
    pitchedSample 44100 0 80 10 5 = claimSampleTrunc 44100 0 80 10 5 :=
  C4_pitched_sample_trunc 44100 0 80 10 5 (by norm_num) (by norm_num)
    (by norm_num) (by norm_num) (by norm_num)

/-- C4 counterexample to the claim as stated: at sample rate 352 Hz (where
`0.01*R = 3.52`, so `int` gives 3 fade frames but `round` gives 4), frequency
440 (tone C, octave 0), amplitude 96 (`Dynamic.f`), 8 frames, sample index 1:
the code computes full amplitude `sin(5*pi/2) = 1` giving sample 224, while
the claim's formula puts index 1 inside the fade-in ramp (`fadeInFrames = 2`)
giving sample 176. -/
theorem C4_counterexample :
    pitchedSample 352 (freqVal Tone.C 0 0) 96 8 1 ≠
      claimSample 352 (freqVal Tone.C 0 0) 96 8 1 := by
  have hraw : fadingFramesRaw 352 = 3 := by
    rw [fadingFramesRaw, pyInt_eq_floor (by norm_num)]
    norm_num [Int.floor_eq_iff]
  have hFF : fadingFrames 352 8 = 3 := by
    rw [fadingFrames, hraw]
    norm_num
  have hfIn : fadeInFrames 352 8 = 1 := by
    rw [fadeInFrames, hFF]
    rfl
  have hfOut : fadeOutFrames 352 8 = 2 := by
    rw [fadeOutFrames, hFF]
    rfl
  have hsinCode : Real.sin (((1 : ℤ) : ℝ) / ((352 : ℚ) : ℝ) * (440 : ℝ) *
      (2 * Real.pi)) = 1 := by
    have e : ((1 : ℤ) : ℝ) / ((352 : ℚ) : ℝ) * (440 : ℝ) * (2 * Real.pi) =
        Real.pi / 2 + 2 * Real.pi := by
      push_cast
      ring
    rw [e, Real.sin_add_two_pi, Real.sin_pi_div_two]
  have hcode : pitchedSample 352 (freqVal Tone.C 0 0) 96 8 1 = 224 := by
    rw [pitchedSample]
    have hframe : pitchedFrame 352 (freqVal Tone.C 0 0) 96 8 1 = 224 := by
      simp only [pitchedFrame, hfIn, hfOut, freqVal_C_zero]
      rw [if_neg (by norm_num), if_neg (by norm_num), hsinCode]
      norm_num
    rw [hframe, pyIntReal, if_pos (by norm_num)]
    norm_num
  have hsinClaim : Real.sin (2 * Real.pi * (440 : ℝ) * ((1 : ℤ) : ℝ) /
      ((352 : ℚ) : ℝ)) = 1 := by
    have e : 2 * Real.pi * (440 : ℝ) * ((1 : ℤ) : ℝ) / ((352 : ℚ) : ℝ) =
        Real.pi / 2 + 2 * Real.pi := by
      push_cast
      ring
    rw [e, Real.sin_add_two_pi, Real.sin_pi_div_two]
  have hcf : claimFadeFrames 352 8 = 4 := by
    rw [claimFadeFrames]
    norm_num [round_eq, Int.floor_eq_iff]
  have hclaim : claimSample 352 (freqVal Tone.C 0 0) 96 8 1 = 176 := by
    rw [claimSample, hcf]
    simp only [claimSampleCore, freqVal_C_zero]
    rw [show Int.fdiv (4 : ℤ) 2 = 2 from rfl,
      show Int.fdiv ((4 : ℤ) + 1) 2 = 2 from rfl,
      if_pos (by norm_num : (1 : ℤ) < 2), hsinClaim]
    norm_num
  rw [hcode, hclaim]
  norm_num

/-- C3 counterexample to the claim as stated: `frequency(A, 0, 0)` is
`440 * 2^(9/12)`, which is strictly greater than 440, hence not 440. -/
theorem C3_counterexample : freqVal Tone.A 0 0 ≠ 440 := by
  unfold freqVal
  have e : (((((0 : ℤ) * 12 : ℤ) : ℚ) + Tone.val Tone.A + 0) / 12 : ℚ) =
      (3 / 4 : ℚ) := by
    norm_num [Tone.val]
  rw [e]
  have h1 : (1 : ℝ) < (2 : ℝ) ^ (((3 / 4 : ℚ) : ℝ)) := by
    have h2 := (Real.rpow_lt_rpow_left_iff
      (show (1 : ℝ) < 2 by norm_num)).mpr
      (show (0 : ℝ) < ((3 / 4 : ℚ) : ℝ) by norm_num)
    simpa [Real.rpow_zero] using h2
  intro hc
  nlinarith [h1]

end MusicComposer
